import Mathlib

/-
Verification development for the AITutor grading pipeline.

Shallow embedding of the TypeScript sources:
  src/server/services/gradingService.ts   (single-stage grading engine)
  src/server/services/enhancedGrader.ts   (two-stage grading engine)
  src/server/services/grader.ts           (dynamic-schema entry point, TESTING_MODE)
  src/unnamed/part_015                    (dynamic assignment analyzer)
  src/shared/schema.ts                    (assignment schema types and validator)
  src/server/routes.ts                    (job orchestration loop)

JavaScript numbers appearing in model responses are modelled as rationals (ℚ);
none of the embedded code paths perform arithmetic on them, they only copy
fields, so this does not affect any of the statements proved below.
JavaScript objects used as string-keyed maps (`sectionFeedback`) are modelled
as association lists `List (String × _)` preserving insertion order.
-/

namespace AITutor

/-- Grading status, the `'pass' | 'fail' | 'pending'` union from
`gradingService.ts` / `enhancedGrader.ts`. -/
inductive Status where
  | pass
  | fail
  | pending
  deriving DecidableEq

/-- The slice of the `File` record (shared/schema.ts) that the grading services
read: numeric id, display name, stored filename and the text extracted by the
upload subsystem (`null` until extraction completes, modelled as `Option`). -/
structure FileInfo where
  id : Nat
  originalname : String
  filename : String
  extractedText : Option String
  deriving DecidableEq

namespace GradingService

/-- `SectionFeedback` from gradingService.ts (lines 54-60). -/
structure SectionFeedback where
  score : ℚ
  maxScore : ℚ
  feedback : String
  strengths : List String
  improvements : List String
  deriving DecidableEq

/-- `GradingResult` from gradingService.ts (lines 62-73). -/
structure GradingResult where
  submissionId : String
  submissionName : String
  totalScore : ℚ
  maxPossibleScore : ℚ
  overallFeedback : String
  status : Status
  sectionFeedback : List (String × SectionFeedback)
  createdAt : String
  deriving DecidableEq

/-- The object obtained by `JSON.parse` from the provider response, with the
fields `gradeWithGemini` / `gradeWithOpenAI` read out of it. -/
structure ParsedGrading where
  totalScore : ℚ
  maxPossibleScore : ℚ
  overallFeedback : String
  status : Status
  sectionFeedback : List (String × SectionFeedback)
  deriving DecidableEq

/-- The result construction of `gradeWithGemini` (gradingService.ts lines
271-280): every field of the parsed model response is copied verbatim into the
returned `GradingResult`; `createdAt` is the current timestamp.
(`gradeWithOpenAI`, lines 184-193, builds the identical record.) -/
def gradeWithGemini (gradingResult : ParsedGrading) (submissionFile : FileInfo)
    (now : String) : GradingResult :=
  { submissionId := toString submissionFile.id
    submissionName := submissionFile.originalname
    totalScore := gradingResult.totalScore
    maxPossibleScore := gradingResult.maxPossibleScore
    overallFeedback := gradingResult.overallFeedback
    status := gradingResult.status
    sectionFeedback := gradingResult.sectionFeedback
    createdAt := now }

end GradingService

namespace EnhancedGrader

/-- `SectionFeedback` from enhancedGrader.ts (lines 57-64). -/
structure SectionFeedback where
  score : ℚ
  max_score : ℚ
  feedback : String
  strengths : List String
  improvements : List String
  grade_level : String
  deriving DecidableEq

/-- `GradingResult` from enhancedGrader.ts (lines 66-77). -/
structure GradingResult where
  submissionId : String
  submissionName : String
  totalScore : ℚ
  maxPossibleScore : ℚ
  overallFeedback : String
  status : Status
  sectionFeedback : List (String × SectionFeedback)
  createdAt : String
  deriving DecidableEq

/-- The object `JSON.parse` yields from the provider response, with the fields
`gradeWithGemini` / `gradeWithOpenAI` read from it. -/
structure ParsedGrading where
  totalScore : ℚ
  maxPossibleScore : ℚ
  overallFeedback : String
  status : Status
  sectionFeedback : List (String × SectionFeedback)
  deriving DecidableEq

/-- `RubricSectionGrading` from rubricParser.ts (lines 54-62): the
standardized schema section used by the enhanced grader. -/
structure RubricSectionGrading where
  section_name : String
  max_score : ℚ
  fail : String
  pass : String
  credit : String
  distinction : String
  high_distinction : String
  deriving DecidableEq

/-- `ParsedRubric` from rubricParser.ts (lines 65-69): the grading schema
consumed by the enhanced grading engine. -/
structure ParsedRubric where
  sections : List RubricSectionGrading
  context_text : String
  reference_text : Option String
  deriving DecidableEq

/-- The result construction of `gradeWithGemini` (enhancedGrader.ts lines
282-291): every field of the parsed model response is copied verbatim into the
returned `GradingResult`. (`gradeWithOpenAI`, lines 195-204, is identical.) -/
def gradeWithGemini (gradingResult : ParsedGrading) (submissionFile : FileInfo)
    (now : String) : GradingResult :=
  { submissionId := toString submissionFile.id
    submissionName := submissionFile.originalname
    totalScore := gradingResult.totalScore
    maxPossibleScore := gradingResult.maxPossibleScore
    overallFeedback := gradingResult.overallFeedback
    status := gradingResult.status
    sectionFeedback := gradingResult.sectionFeedback
    createdAt := now }

/-- `generateErrorResult` from enhancedGrader.ts (lines 315-329): the fallback
result produced when the enhanced grading pipeline fails.  Its
`sectionFeedback` is the empty object. -/
def generateErrorResult (submissionFile : FileInfo) (errorMessage : String)
    (now : String) : GradingResult :=
  { submissionId := toString submissionFile.id
    submissionName := submissionFile.originalname
    totalScore := 0
    maxPossibleScore := 100
    overallFeedback := errorMessage
    status := Status.pending
    sectionFeedback := []
    createdAt := now }

end EnhancedGrader

namespace SharedSchema

/-- One band of `QualitativeCriteria` (shared/schema.ts assignment-schema
types): description plus examples. -/
structure QualBand where
  description : String
  examples : List String
  deriving DecidableEq

/-- `QualitativeCriteria`: the five named grade bands. -/
structure QualitativeCriteria where
  fail : QualBand
  pass : QualBand
  credit : QualBand
  distinction : QualBand
  high_distinction : QualBand
  deriving DecidableEq

/-- `NumericalMarkRange` from the assignment-schema types. -/
structure NumericalMarkRange where
  range : String
  grade : String
  description : String
  examples : List String
  deriving DecidableEq

/-- The `QualitativeCriteria | NumericalCriteria` union of a section's
criteria block. -/
inductive Criteria where
  | qualitative (c : QualitativeCriteria)
  | numerical (mark_ranges : List NumericalMarkRange)
  deriving DecidableEq

/-- `AssignmentSection`: name, optional weight, criteria. -/
structure AssignmentSection where
  section_name : String
  section_weight : Option ℚ
  criteria : Criteria
  deriving DecidableEq

/-- `AssignmentSchema` as it reaches `validateAssignmentSchema`.  The
validator receives an untyped (`any`) JSON object, so string fields that may
be missing or non-strings are modelled as `Option String` (`none` = absent or
not a string) and `marking_schema_type` as a raw `String`. -/
structure RawAssignmentSchema where
  assignment_title : Option String
  marking_schema_type : String
  total_possible_marks : Option ℚ
  sections : List AssignmentSection
  general_instructions : Option String
  submission_requirements : Option String
  deriving DecidableEq

/-- `validateAssignmentSchema` (shared/schema.ts lines 437-445): checks that
the title is a string, the schema kind is one of the four enumerated kinds,
`sections` is a non-empty array and the two instruction fields are strings.
It does not inspect section weights or `total_possible_marks`. -/
def validateAssignmentSchema (schema : RawAssignmentSchema) : Bool :=
  schema.assignment_title.isSome &&
  (schema.marking_schema_type = "qualitative" ||
    schema.marking_schema_type = "numerical" ||
    schema.marking_schema_type = "weighted" ||
    schema.marking_schema_type = "hybrid") &&
  !schema.sections.isEmpty &&
  schema.general_instructions.isSome &&
  schema.submission_requirements.isSome

/-- The four enumerated schema kinds. -/
def schemaKinds : List String := ["qualitative", "numerical", "weighted", "hybrid"]

/-- Replace every section weight and the stated total of a schema (used to
express that validation is independent of them). -/
def updateWeights (schema : RawAssignmentSchema) (f : Option ℚ → Option ℚ)
    (g : Option ℚ → Option ℚ) : RawAssignmentSchema :=
  { schema with
    sections := schema.sections.map (fun sec =>
      { sec with section_weight := f sec.section_weight })
    total_possible_marks := g schema.total_possible_marks }

end SharedSchema

namespace Analyzer

open SharedSchema

/-- One reference material reduced to `{ filename, content }`
(part_015 lines 20-28). -/
structure FileContent where
  filename : String
  content : String
  deriving DecidableEq

/-- The content-extraction step of `analyzeAssignmentMaterials` (part_015
lines 20-28): map every file to `{ filename, content }`, throwing at the
first file whose extracted text is not truthy.  The source guard
`if (!file.extractedText)` is a JavaScript truthiness test, so it throws both
when the text is null/undefined (`none`) and when it is the empty string. -/
def extractContents : List FileInfo → Except String (List FileContent)
  | [] => Except.ok []
  | file :: rest =>
    match file.extractedText with
    | some t =>
      if t = "" then
        Except.error
          ("File " ++ file.originalname ++ " does not have extracted text content.")
      else
        (extractContents rest).map
          (fun cs => { filename := file.originalname, content := t } :: cs)
    | none => Except.error
        ("File " ++ file.originalname ++ " does not have extracted text content.")

/-- Whitespace inside a line (`\s` of the section-heading regexes, restricted
to the characters that can occur within one line of ASCII text). -/
def isWsChar (c : Char) : Bool :=
  c = ' ' || c = '\t' || c = '\r'

/-- The heading keywords of the first section pattern
(`Question|Task|Part|Section|Chapter`, case-insensitive). -/
def headingKeywords : List String :=
  ["question", "task", "part", "section", "chapter"]

/-- Line-based model of the first section pattern of `extractDefaultSections`
(part_015 line 237): a heading keyword, a number, optional `:`/`.`, then the
rest of the line as the section name. -/
def pat1 (line : String) : Option String :=
  let l := line.toList.dropWhile isWsChar
  match headingKeywords.findSome? (fun kw =>
      let n := kw.length
      if String.mk ((l.take n).map Char.toLower) = kw then some (l.drop n) else none) with
  | none => none
  | some rest =>
    let r1 := rest.dropWhile isWsChar
    if (r1.takeWhile Char.isDigit).isEmpty then none
    else
      let r2 := r1.dropWhile Char.isDigit
      let r3 := match r2 with
        | ':' :: r => r
        | '.' :: r => r
        | r => r
      let r4 := r3.dropWhile isWsChar
      if r4.isEmpty then none
      else some (String.mk r4).trim

/-- Line-based model of the second section pattern (part_015 line 238): an
optional `digits.`/`digits)` label, then a capitalized run of 11-51 characters
free of colons. -/
def pat2 (line : String) : Option String :=
  let l := line.toList.dropWhile isWsChar
  let digits := l.takeWhile Char.isDigit
  let l1 :=
    if digits.isEmpty then l
    else match l.drop digits.length with
      | '.' :: r => r.dropWhile isWsChar
      | ')' :: r => r.dropWhile isWsChar
      | _ => l
  match l1 with
  | [] => none
  | c :: rest =>
    if c.isUpper then
      let body := (rest.takeWhile (fun ch => ch ≠ ':')).take 50
      if 10 ≤ body.length then some (String.mk (c :: body)).trim else none
    else none

/-- Line-based model of the third section pattern (part_015 line 239): an
all-caps-and-spaces run of 6-31 characters filling the line up to an optional
colon. -/
def pat3 (line : String) : Option String :=
  let l := line.toList.dropWhile isWsChar
  match l with
  | [] => none
  | c :: rest =>
    if c.isUpper then
      let body := (rest.takeWhile (fun ch => ch.isUpper || isWsChar ch)).take 30
      if 5 ≤ body.length then
        let after := rest.drop body.length
        let after1 := match after with
          | ':' :: r => r
          | r => r
        if (after1.dropWhile isWsChar).isEmpty then
          some (String.mk (c :: body)).trim
        else none
      else none
    else none

/-- Matches of one pattern over all lines, filtered to names of length
4-99 as in part_015 line 248. -/
def patternMatches (p : String → Option String) (lines : List String) : List String :=
  (lines.filterMap p).filter (fun name => 3 < name.length && name.length < 100)

/-- The statically defined fallback section names (part_015 lines 258-263). -/
def fallbackSections : List String :=
  ["Understanding and Analysis",
   "Implementation and Execution",
   "Communication and Presentation",
   "Critical Thinking and Evaluation"]

/-- The pattern loop of `extractDefaultSections` (part_015 lines 244-254):
accumulate the matches of the three patterns in order, stopping as soon as at
least three sections have been found. -/
def chooseSections (s1 s2 s3 : List String) : List String :=
  if 3 ≤ s1.length then s1
  else if 3 ≤ (s1 ++ s2).length then s1 ++ s2
  else s1 ++ s2 ++ s3

/-- `extractDefaultSections` (part_015 lines 232-267): scan the combined
content for heading-like lines (the three `sectionPatterns` regexes are
modelled line-by-line, since each is anchored at `^`/`\n`), stop once three
candidates are found, fall back to four generic names when none are found,
and cap the list at eight. -/
def extractDefaultSections (fileContents : List FileContent) : List String :=
  let combined := String.intercalate "\n" (fileContents.map (fun f => f.content))
  let lines := combined.splitOn "\n"
  let sections := chooseSections (patternMatches pat1 lines)
    (patternMatches pat2 lines) (patternMatches pat3 lines)
  if sections.isEmpty then fallbackSections
  else sections.take 8

/-- `filename.replace(/\.[^/.]+$/, "")` (part_015 line 197): drop a final
dot-extension when present. -/
def stripExtension (s : String) : String :=
  let rev := s.toList.reverse
  let ext := rev.takeWhile (fun c => c ≠ '.' && c ≠ '/')
  match rev.drop ext.length with
  | '.' :: restRev => if ext.isEmpty then s else String.mk restRev.reverse
  | _ => s

/-- The boilerplate five-band criteria of the default schema
(part_015 lines 201-222). -/
def defaultCriteria : QualitativeCriteria :=
  { fail :=
      { description := "Does not meet minimum requirements"
        examples := ["Missing key components", "Significant errors",
          "Poor understanding demonstrated"] }
    pass :=
      { description := "Meets minimum requirements with basic competency"
        examples := ["Basic understanding", "Some minor issues", "Adequate completion"] }
    credit :=
      { description := "Good work that exceeds minimum requirements"
        examples := ["Clear understanding", "Well-structured", "Minor areas for improvement"] }
    distinction :=
      { description := "High-quality work demonstrating strong understanding"
        examples := ["Excellent analysis", "Clear communication", "Strong evidence"] }
    high_distinction :=
      { description := "Outstanding work of exceptional quality"
        examples := ["Exceptional insight", "Perfect execution", "Innovative approach"] } }

/-- `createDefaultSchema` (part_015 lines 192-227): the statically defined
qualitative schema returned when every provider has failed. -/
def createDefaultSchema (fileContents : List FileContent) : RawAssignmentSchema :=
  let sections := extractDefaultSections fileContents
  let title :=
    match fileContents.head? with
    | some f =>
      let t := stripExtension f.filename
      if t = "" then "Assignment" else t
    | none => "Assignment"
  { assignment_title := some title
    marking_schema_type := "qualitative"
    total_possible_marks := none
    sections := sections.map (fun sectionName =>
      { section_name := sectionName
        section_weight := none
        criteria := Criteria.qualitative defaultCriteria })
    general_instructions := some "Grade according to standard academic criteria"
    submission_requirements := some
      "Submit work that demonstrates understanding of key concepts" }

/-- The provider preference order (part_015 line 41). -/
def aiProviders : List String := ["gemini", "anthropic", "openai"]

/-- The outcome of `analyzeWithProvider` for each provider name.  `none`
models a provider failure: a thrown error, a `null` return, or a response
whose JSON could not be parsed (all of which the provider functions turn
into `null`). -/
structure AnalyzerEnv where
  outcome : String → Option RawAssignmentSchema

/-- The provider fallback loop of `analyzeAssignmentMaterials` (part_015
lines 43-56): accept the first provider result that exists and passes
`validateAssignmentSchema`; a failure or an invalid result moves on to the
next provider. -/
def tryProviders (env : AnalyzerEnv) : List String → Option RawAssignmentSchema
  | [] => none
  | provider :: rest =>
    match env.outcome provider with
    | some result =>
      if validateAssignmentSchema result then some result else tryProviders env rest
    | none => tryProviders env rest

/-- `analyzeAssignmentMaterials` (part_015 lines 15-66): extract the file
contents (failing fast when extracted text is missing — the outer catch
rethrows it wrapped), run the provider fallback loop, and fall back to
`createDefaultSchema` when every provider fails. -/
def analyzeAssignmentMaterials (env : AnalyzerEnv) (files : List FileInfo) :
    Except String RawAssignmentSchema :=
  match extractContents files with
  | Except.error e => Except.error ("Assignment analysis failed: " ++ e)
  | Except.ok fileContents =>
    match tryProviders env aiProviders with
    | some result => Except.ok result
    | none => Except.ok (createDefaultSchema fileContents)

end Analyzer

namespace Grader

/-- `SectionGrade` from the dynamic assignment-schema types
(shared/schema.ts lines 400-409). -/
structure SectionGrade where
  section_name : String
  grade : String
  marks_awarded : Option ℚ
  max_marks : Option ℚ
  feedback : String
  strengths : List String
  improvements : List String
  evidence : List String
  deriving DecidableEq

/-- `GradingResult` from the dynamic assignment-schema types
(shared/schema.ts lines 411-419), the shape grader.ts returns on its
non-testing paths. -/
structure DynGradingResult where
  overall_grade : String
  total_marks : Option ℚ
  max_possible_marks : Option ℚ
  section_grades : List SectionGrade
  overall_feedback : String
  recommendations : List String
  schema_type : String
  deriving DecidableEq

/-- `Omit<GradingResult, 'schema_type'>`: the parsed provider response of
grader.ts before `schema_type` is attached. -/
structure ParsedDynResult where
  overall_grade : String
  total_marks : Option ℚ
  max_possible_marks : Option ℚ
  section_grades : List SectionGrade
  overall_feedback : String
  recommendations : List String
  deriving DecidableEq

/-- The object returned by the TESTING_MODE branch of
`gradePapersWithDynamicSchema` (grader.ts lines 35-43): the spread of
`MOCK_GRADING_RESULT` plus submission identifiers, fixed scores, a `pass`
status and a timestamp. -/
structure MockExtendedResult where
  overall_grade : String
  section_grades : List SectionGrade
  overall_feedback : String
  recommendations : List String
  schema_type : String
  submissionId : String
  submissionName : String
  totalScore : ℚ
  maxPossibleScore : ℚ
  status : Status
  createdAt : String
  deriving DecidableEq

/-- The three result shapes `gradePapersWithDynamicSchema` can return: the
TESTING_MODE mock object, a provider-graded result, or the fallback result.
Only the mock object carries a `status` field. -/
inductive DynOutcome where
  | mock (r : MockExtendedResult)
  | graded (r : DynGradingResult)
  | fallback (r : DynGradingResult)
  deriving DecidableEq

/-- The `status` field of the returned object, when the shape has one. -/
def DynOutcome.statusField : DynOutcome → Option Status
  | DynOutcome.mock r => some r.status
  | DynOutcome.graded _ => none
  | DynOutcome.fallback _ => none

/-- `TESTING_MODE` (grader.ts line 15): hard-coded to `true`. -/
def TESTING_MODE : Bool := true

/-- `MOCK_GRADING_RESULT` from mockData.ts (lines 45-81). -/
def MOCK_GRADING_RESULT : DynGradingResult :=
  { overall_grade := "Credit"
    total_marks := none
    max_possible_marks := none
    section_grades :=
      [{ section_name := "Project Planning"
         grade := "Credit"
         marks_awarded := none
         max_marks := none
         feedback := "Good project planning approach with clear timeline and milestones. Could benefit from more detailed risk assessment."
         strengths := ["Clear project timeline", "Well-defined milestones",
           "Logical task sequencing"]
         improvements := ["Add risk assessment", "Include contingency planning",
           "More detailed resource allocation"]
         evidence := ["Gantt chart provided", "Milestone definitions clear",
           "Task dependencies identified"] },
       { section_name := "Team Management"
         grade := "Distinction"
         marks_awarded := none
         max_marks := none
         feedback := "Excellent team management with clear role definitions and strong communication strategies."
         strengths := ["Clear role assignments", "Regular team meetings",
           "Effective conflict resolution"]
         improvements := ["Document team performance metrics",
           "Include team development strategies"]
         evidence := ["Team charter provided", "Meeting minutes included",
           "Role matrix clear"] },
       { section_name := "Documentation Quality"
         grade := "Credit"
         marks_awarded := none
         max_marks := none
         feedback := "Good documentation quality with clear structure. Some sections could be more comprehensive."
         strengths := ["Professional formatting", "Clear section headings",
           "Good use of diagrams"]
         improvements := ["More detailed analysis", "Include more supporting evidence",
           "Better referencing"]
         evidence := ["Well-structured document", "Appropriate use of visuals",
           "Consistent formatting"] }]
    overall_feedback := "This is a solid project management submission demonstrating good understanding of key concepts. The student shows competency in planning and team management with particularly strong leadership skills. Documentation quality is good but could be enhanced with more detailed analysis and supporting evidence."
    recommendations := ["Develop more comprehensive risk management strategies",
      "Include quantitative performance metrics for team management",
      "Enhance documentation with more detailed analysis and supporting evidence",
      "Consider using advanced project management tools and techniques"]
    schema_type := "qualitative" }

/-- The per-call outcomes of the effectful collaborators of grader.ts: the
analyzer's provider responses and, for stage 2, the outcome of
`gradeWithProvider` for each provider name (`none` models a thrown error or a
`null` return, both of which make the loop continue). -/
structure GraderEnv where
  analyzer : Analyzer.AnalyzerEnv
  gradeOutcome : String → Option ParsedDynResult

/-- `extractSubmissionContent` (grader.ts lines 242-253): the stored
extracted text, or a thrown error when none is available.  The source guard
`if (submissionFile.extractedText)` is a truthiness test, so the empty
string also falls through to the error. -/
def extractSubmissionContent (submissionFile : FileInfo) : Except String String :=
  match submissionFile.extractedText with
  | some t =>
    if t = "" then
      Except.error
        ("No extracted text content available for " ++ submissionFile.originalname)
    else Except.ok t
  | none => Except.error
      ("No extracted text content available for " ++ submissionFile.originalname)

/-- The provider loop of `gradeSubmissionWithSchema` (grader.ts lines
90-108): first non-null, non-throwing provider result wins. -/
def tryGradeProviders (env : GraderEnv) : List String → Option ParsedDynResult
  | [] => none
  | provider :: rest =>
    match env.gradeOutcome provider with
    | some result => some result
    | none => tryGradeProviders env rest

/-- The content-combination step of `gradeSubmissionWithSchema` (grader.ts
lines 78-81): extract every submission file's content, throwing at the first
file without stored text. -/
def extractAllSubmissionContents : List FileInfo → Except String (List String)
  | [] => Except.ok []
  | file :: rest =>
    match extractSubmissionContent file with
    | Except.ok t => (extractAllSubmissionContents rest).map (fun ts => t :: ts)
    | Except.error e => Except.error e

/-- `gradeSubmissionWithSchema` (grader.ts lines 72-112): extract all
submission contents (a missing text throws), run the provider loop, attach
the schema kind, and throw when every provider failed. -/
def gradeSubmissionWithSchema (env : GraderEnv) (schema : SharedSchema.RawAssignmentSchema)
    (submissionFiles : List FileInfo) : Except String DynGradingResult :=
  match extractAllSubmissionContents submissionFiles with
  | Except.error e => Except.error e
  | Except.ok _ =>
    match tryGradeProviders env Analyzer.aiProviders with
    | some result => Except.ok
        { overall_grade := result.overall_grade
          total_marks := result.total_marks
          max_possible_marks := result.max_possible_marks
          section_grades := result.section_grades
          overall_feedback := result.overall_feedback
          recommendations := result.recommendations
          schema_type := schema.marking_schema_type }
    | none => Except.error "All AI providers failed during grading"

/-- `generateFallbackGradingResult` (grader.ts lines 258-286).  The parameter
is declared as a single `File` but the only call site (line 62) passes the
submission-file array, so `submissionFile.originalname` is `undefined` and
interpolates into the feedback string as the text "undefined". -/
def generateFallbackGradingResult (_submissionFile : List FileInfo)
    (errorMessage : String) : DynGradingResult :=
  { overall_grade := "Unable to Grade"
    total_marks := none
    max_possible_marks := none
    section_grades :=
      [{ section_name := "Grading Error"
         grade := "error"
         marks_awarded := none
         max_marks := none
         feedback := "Unable to grade this submission due to: " ++ errorMessage
         strengths := []
         improvements := ["Please ensure the submission is properly formatted",
           "Check that all required content is included",
           "Contact instructor if this error persists"]
         evidence := [] }]
    overall_feedback := "Grading could not be completed for undefined. Error: "
      ++ errorMessage
    recommendations := ["Verify submission format and content",
      "Ensure all files are properly uploaded",
      "Contact instructor for assistance"]
    schema_type := "qualitative" }

/-- The `try` body of `gradePapersWithDynamicSchema` (grader.ts lines 26-57):
a TESTING_MODE short-circuit returning the extended mock object, otherwise
the two-stage pipeline (analyzer, then schema-directed grading). -/
def gradeBody (env : GraderEnv) (now : String) (rubricFiles submissionFiles : List FileInfo)
    (submissionNames : String) : Except String DynOutcome :=
  if TESTING_MODE then
    Except.ok (DynOutcome.mock
      { overall_grade := MOCK_GRADING_RESULT.overall_grade
        section_grades := MOCK_GRADING_RESULT.section_grades
        overall_feedback := MOCK_GRADING_RESULT.overall_feedback
        recommendations := MOCK_GRADING_RESULT.recommendations
        schema_type := MOCK_GRADING_RESULT.schema_type
        submissionId :=
          ((submissionFiles.head?.map (fun f => toString f.id)).getD "mock-submission")
        submissionName := submissionNames
        totalScore := 75
        maxPossibleScore := 100
        status := Status.pass
        createdAt := now })
  else
    match Analyzer.analyzeAssignmentMaterials env.analyzer rubricFiles with
    | Except.error e => Except.error e
    | Except.ok assignmentSchema =>
      match gradeSubmissionWithSchema env assignmentSchema submissionFiles with
      | Except.error e => Except.error e
      | Except.ok result => Except.ok (DynOutcome.graded result)

/-- `gradePapersWithDynamicSchema` (grader.ts lines 22-67): run the body,
and convert any thrown error into the fallback grading result — the function
itself never throws. -/
def gradePapersWithDynamicSchema (env : GraderEnv) (now : String)
    (rubricFiles submissionFiles : List FileInfo) : DynOutcome :=
  let submissionNames :=
    String.intercalate ", " (submissionFiles.map (fun f => f.originalname))
  match gradeBody env now rubricFiles submissionFiles submissionNames with
  | Except.ok r => r
  | Except.error msg =>
    DynOutcome.fallback (generateFallbackGradingResult submissionFiles msg)

end Grader

namespace Routes

/-- Job lifecycle status (`'processing' | 'complete' | 'error'`,
routes.ts). -/
inductive JobStatus where
  | processing
  | complete
  | error
  deriving DecidableEq

/-- The slice of the in-memory job record (routes.ts lines 248-257) that the
lifecycle claims are about; `results` counts the accumulated grading
results. -/
structure JobState where
  status : JobStatus
  progress : ℤ
  currentFile : Option String
  error : Option String
  results : ℕ
  deriving DecidableEq

/-- JavaScript `Math.round` on a non-negative rational: round half up. -/
def jsRound (q : ℚ) : ℤ := ⌊q + 1 / 2⌋

/-- The per-iteration progress update (routes.ts lines 266-270):
`progress = Math.round((i / n) * 100)` and the current file name. -/
def progressWrite (n i : ℕ) (names : ℕ → String) (prev : JobState) : JobState :=
  { prev with
    progress := jsRound ((i : ℚ) / (n : ℚ) * 100)
    currentFile := some (names i) }

/-- The result-append write (routes.ts lines 288-294): status and progress
are untouched. -/
def resultWrite (st : JobState) : JobState :=
  { st with results := st.results + 1 }

/-- The catch-block write (routes.ts lines 304-311): status `error` with a
message; progress is untouched. -/
def errorWrite (st : JobState) (msg : String) : JobState :=
  { st with status := JobStatus.error, error := some msg }

/-- The completion write (routes.ts lines 297-303). -/
def completeWrite (st : JobState) : JobState :=
  { st with status := JobStatus.complete, progress := 100 }

/-- The writes performed by the asynchronous grading loop of the `/api/grade`
route (routes.ts lines 260-312), starting at submission index `i` with the
job record in state `prev`: for each submission a progress write, then (as
`enhancedGradePapers` resolves) a result-append write; a step that throws
(`stepFail i = some msg`) is caught once and turns the job to `error`, ending
the loop; after all submissions the job is written `complete` with
progress 100. -/
def runLoop (n : ℕ) (names : ℕ → String) (stepFail : ℕ → Option String) :
    ℕ → JobState → List JobState
  | i, prev =>
    if _h : i < n then
      match stepFail i with
      | some msg =>
        [progressWrite n i names prev,
         errorWrite (progressWrite n i names prev) msg]
      | none =>
        progressWrite n i names prev ::
          resultWrite (progressWrite n i names prev) ::
            runLoop n names stepFail (i + 1) (resultWrite (progressWrite n i names prev))
    else
      [completeWrite prev]
  termination_by i _ => n - i

/-- The initial job record (routes.ts lines 248-257). -/
def initJob (firstName : Option String) : JobState :=
  { status := JobStatus.processing
    progress := 0
    currentFile := firstName
    error := none
    results := 0 }

/-- The full sequence of job-record states written for one grading job with
`n` submissions. -/
def jobTrace (n : ℕ) (names : ℕ → String) (stepFail : ℕ → Option String)
    (firstName : Option String) : List JobState :=
  initJob firstName :: runLoop n names stepFail 0 (initJob firstName)

end Routes

namespace Extractor

/-- Whitespace, used both for the `\s` class of the fence regex and for JSON
whitespace.  Model restriction: the four ASCII whitespace characters that
JSON whitespace and JavaScript `\s` have in common (space, tab, LF, CR). -/
def isWs (c : Char) : Bool :=
  c = ' ' || c = '\t' || c = '\n' || c = '\r'

/-- A parsed JSON value, as produced by `JSON.parse`.  Number and string
lexemes are kept raw (validated but not numerically decoded), which is enough
to compare parsed values produced by the extraction paths. -/
inductive Json where
  | null
  | bool (b : Bool)
  | num (lexeme : String)
  | str (content : String)
  | arr (elements : List Json)
  | obj (members : List (String × Json))

/-- Hexadecimal digit, for `\uXXXX` escapes. -/
def hexDigit (c : Char) : Bool :=
  c.isDigit || ('a' ≤ c && c ≤ 'f') || ('A' ≤ c && c ≤ 'F')

/-- Parse the body of a JSON string after the opening quote: contents up to
the unescaped closing quote (escape sequences validated, raw control
characters rejected), and the remaining input. -/
def parseStringBody (fuel : Nat) (l : List Char) : Option (List Char × List Char) :=
  match fuel with
  | 0 => none
  | f + 1 =>
    match l with
    | [] => none
    | '"' :: rest => some ([], rest)
    | '\\' :: e :: rest =>
      if e = '"' || e = '\\' || e = '/' || e = 'b' || e = 'f' || e = 'n' ||
          e = 'r' || e = 't' then
        (parseStringBody f rest).map (fun p => ('\\' :: e :: p.1, p.2))
      else if e = 'u' then
        match rest with
        | h1 :: h2 :: h3 :: h4 :: rest2 =>
          if hexDigit h1 && hexDigit h2 && hexDigit h3 && hexDigit h4 then
            (parseStringBody f rest2).map
              (fun p => ('\\' :: 'u' :: h1 :: h2 :: h3 :: h4 :: p.1, p.2))
          else none
        | _ => none
      else none
    | c :: rest =>
      if c.toNat < 32 then none
      else (parseStringBody f rest).map (fun p => (c :: p.1, p.2))

/-- The integer part of a JSON number: `0`, or a nonzero digit followed by
digits. -/
def parseIntPart : List Char → Option (List Char × List Char)
  | '0' :: rest => some (['0'], rest)
  | c :: rest =>
    if c.isDigit then
      some (c :: rest.takeWhile Char.isDigit, rest.dropWhile Char.isDigit)
    else none
  | [] => none

/-- The optional fraction part of a JSON number: `.` followed by at least one
digit. -/
def parseFracPart : List Char → Option (List Char × List Char)
  | '.' :: rest =>
    let ds := rest.takeWhile Char.isDigit
    if ds.isEmpty then none
    else some ('.' :: ds, rest.dropWhile Char.isDigit)
  | l => some ([], l)

/-- The optional exponent part of a JSON number: `e`/`E`, optional sign, at
least one digit. -/
def parseExpPart : List Char → Option (List Char × List Char)
  | c :: rest =>
    if c = 'e' || c = 'E' then
      match
        (match rest with
         | s :: r => if s = '+' || s = '-' then ([s], r) else (([] : List Char), s :: r)
         | [] => (([] : List Char), ([] : List Char))) with
      | (sign, rest1) =>
        let ds := rest1.takeWhile Char.isDigit
        if ds.isEmpty then none
        else some (c :: (sign ++ ds), rest1.dropWhile Char.isDigit)
    else some ([], c :: rest)
  | [] => some ([], [])

/-- A JSON number: optional minus, integer part, optional fraction and
exponent.  Returns the raw lexeme and the rest of the input. -/
def parseNumber (l : List Char) : Option (List Char × List Char) :=
  match
    (match l with
     | '-' :: rest => (['-'], rest)
     | rest => (([] : List Char), rest)) with
  | (sign, l1) =>
    match parseIntPart l1 with
    | none => none
    | some (ip, l2) =>
      match parseFracPart l2 with
      | none => none
      | some (fp, l3) =>
        match parseExpPart l3 with
        | none => none
        | some (ep, l4) => some (sign ++ ip ++ fp ++ ep, l4)

mutual

/-- Parse one JSON value starting at the head of the input (the caller has
skipped any leading whitespace); returns the value and the rest. -/
def parseValue (fuel : Nat) (l : List Char) : Option (Json × List Char) :=
  match fuel with
  | 0 => none
  | f + 1 =>
    match l with
    | '{' :: rest => parseObjectRest f (rest.dropWhile isWs)
    | '[' :: rest => parseArrayRest f (rest.dropWhile isWs)
    | '"' :: rest =>
      (parseStringBody (rest.length + 1) rest).map
        (fun p => (Json.str (String.mk p.1), p.2))
    | 't' :: rest =>
      if rest.take 3 = ['r', 'u', 'e'] then some (Json.bool true, rest.drop 3)
      else none
    | 'f' :: rest =>
      if rest.take 4 = ['a', 'l', 's', 'e'] then some (Json.bool false, rest.drop 4)
      else none
    | 'n' :: rest =>
      if rest.take 3 = ['u', 'l', 'l'] then some (Json.null, rest.drop 3)
      else none
    | c :: rest =>
      if c = '-' || c.isDigit then
        (parseNumber (c :: rest)).map (fun p => (Json.num (String.mk p.1), p.2))
      else none
    | [] => none

/-- Parse the inside of an object after `{` (whitespace already skipped). -/
def parseObjectRest (fuel : Nat) (l : List Char) : Option (Json × List Char) :=
  match fuel with
  | 0 => none
  | f + 1 =>
    match l with
    | '}' :: rest => some (Json.obj [], rest)
    | _ => parseMembers f l []

/-- Parse one or more `"key": value` members separated by commas, up to the
closing `}`. -/
def parseMembers (fuel : Nat) (l : List Char) (acc : List (String × Json)) :
    Option (Json × List Char) :=
  match fuel with
  | 0 => none
  | f + 1 =>
    match l with
    | '"' :: rest =>
      match parseStringBody (rest.length + 1) rest with
      | none => none
      | some (key, r1) =>
        match r1.dropWhile isWs with
        | ':' :: r2 =>
          match parseValue f (r2.dropWhile isWs) with
          | none => none
          | some (v, r3) =>
            match r3.dropWhile isWs with
            | ',' :: r4 => parseMembers f (r4.dropWhile isWs) (acc ++ [(String.mk key, v)])
            | '}' :: r4 => some (Json.obj (acc ++ [(String.mk key, v)]), r4)
            | _ => none
        | _ => none
    | _ => none

/-- Parse the inside of an array after `[` (whitespace already skipped). -/
def parseArrayRest (fuel : Nat) (l : List Char) : Option (Json × List Char) :=
  match fuel with
  | 0 => none
  | f + 1 =>
    match l with
    | ']' :: rest => some (Json.arr [], rest)
    | _ => parseElems f l []

/-- Parse one or more array elements separated by commas, up to the closing
`]`. -/
def parseElems (fuel : Nat) (l : List Char) (acc : List Json) :
    Option (Json × List Char) :=
  match fuel with
  | 0 => none
  | f + 1 =>
    match parseValue f l with
    | none => none
    | some (v, r1) =>
      match r1.dropWhile isWs with
      | ',' :: r2 => parseElems f (r2.dropWhile isWs) (acc ++ [v])
      | ']' :: r2 => some (Json.arr (acc ++ [v]), r2)
      | _ => none

end

/-- Drop trailing whitespace. -/
def trimTrailing (l : List Char) : List Char :=
  (l.reverse.dropWhile isWs).reverse

/-- Drop leading and trailing whitespace, exactly the freedom `JSON.parse`
grants around a top-level value. -/
def trimBoth (l : List Char) : List Char :=
  trimTrailing (l.dropWhile isWs)

/-- Model of `JSON.parse`: trim surrounding whitespace, then parse exactly
one JSON value consuming the whole rest.  `none` models a thrown
`SyntaxError`.  The fuel `3 * length + 3` dominates the recursion depth:
every three fuel steps consume at least one input character. -/
def jsonParse (s : String) : Option Json :=
  match parseValue (3 * (trimBoth s.data).length + 3) (trimBoth s.data) with
  | some (v, []) => some v
  | _ => none

/-- Does the input begin with whitespace followed by a closing ```` ``` ````
fence?  This is where the lazy capture group of the fence regex stops. -/
def ticksAfterWs (l : List Char) : Bool :=
  "```".toList.isPrefixOf (l.dropWhile isWs)

/-- The lazy capture `([\s\S]*?)` of the fence regex: the shortest run of
characters followed by whitespace and a closing fence; `none` when no closing
fence exists. -/
def capAux : List Char → Option (List Char)
  | [] => none
  | c :: rest =>
    if ticksAfterWs (c :: rest) then some []
    else (capAux rest).map (fun cap => c :: cap)

/-- The regex `/```json\s*([\s\S]*?)\s*```/` (grader.ts line 189, part_015
line 138): scan left to right for a ```` ```json ```` opening whose greedy
`\s*` then lazy capture reach a closing fence; if an opening has no closing
fence the scan resumes one character later. -/
def fenceCapture : List Char → Option (List Char)
  | [] => none
  | c :: rest =>
    if "```json".toList.isPrefixOf (c :: rest) then
      match capAux (((c :: rest).drop 7).dropWhile isWs) with
      | some cap => some cap
      | none => fenceCapture rest
    else fenceCapture rest

/-- The response-extraction step shared by `gradeWithGemini` (grader.ts lines
188-194) and `analyzeWithGemini` (part_015 lines 137-144): if the fence regex
matches, `JSON.parse` the capture group; otherwise `JSON.parse` the whole
response.  A parse failure on either path is caught and yields `null`
(`none`). -/
def geminiExtract (content : String) : Option Json :=
  match fenceCapture content.data with
  | some cap => jsonParse (String.mk cap)
  | none => jsonParse content

/-- Wrap a payload in a markdown ```` ```json ```` code fence. -/
def fenceWrap (s : String) : String :=
  "```json\n" ++ s ++ "\n```"

/-- The four-character tail appended by `fenceWrap` after the payload. -/
def wTail : List Char := ['\n', '`', '`', '`']

/-- The character data of `fenceWrap`. -/
def wrapData (l : List Char) : List Char :=
  '`' :: '`' :: '`' :: 'j' :: 's' :: 'o' :: 'n' :: '\n' :: (l ++ wTail)

/-- Does the list contain three consecutive backticks? -/
def hasTripleTick : List Char → Bool
  | [] => false
  | c :: rest => (c = '`' && "``".toList.isPrefixOf rest) || hasTripleTick rest

end Extractor

/-! ### Concrete inputs used by the counterexamples -/

/-- A string that is itself valid JSON (a JSON string literal) but contains a
```` ```json ```` fence inside its contents. -/
def jsonWithFence : String := "\" ```json 0 ``` \""

/-- A submission file with extracted text, used as a concrete input. -/
def subFile : FileInfo :=
  { id := 7
    originalname := "essay.pdf"
    filename := "1-essay.pdf"
    extractedText := some "My essay text" }

/-- A parsed provider response whose stated status is `fail` although its
total score is 90 of 100 — far above any pass threshold used in the repo
(60% in gradingService.ts, 50% in enhancedGrader.ts). -/
def statusDriftParsed : GradingService.ParsedGrading :=
  { totalScore := 90
    maxPossibleScore := 100
    overallFeedback := "Strong work"
    status := Status.fail
    sectionFeedback := [("Intro",
      { score := 90
        maxScore := 100
        feedback := "good"
        strengths := []
        improvements := [] })] }

/-- A parsed provider response containing a section score of 50 with a
section max score of 10. -/
def outOfRangeParsed : GradingService.ParsedGrading :=
  { totalScore := 50
    maxPossibleScore := 10
    overallFeedback := "ok"
    status := Status.pass
    sectionFeedback := [("Intro",
      { score := 50
        maxScore := 10
        feedback := "good"
        strengths := []
        improvements := [] })] }

/-- A parsed provider response whose stated `totalScore` (90) disagrees with
the sum of its section scores (10) by far more than one point. -/
def totalDriftParsed : GradingService.ParsedGrading :=
  { totalScore := 90
    maxPossibleScore := 100
    overallFeedback := "ok"
    status := Status.pass
    sectionFeedback := [("Intro",
      { score := 4
        maxScore := 50
        feedback := "a"
        strengths := []
        improvements := [] }),
      ("Body",
      { score := 6
        maxScore := 50
        feedback := "b"
        strengths := []
        improvements := [] })] }

/-- A one-section grading schema for the enhanced grader. -/
def introRubric : EnhancedGrader.ParsedRubric :=
  { sections := [{ section_name := "Intro"
                   max_score := 10
                   fail := "f"
                   pass := "p"
                   credit := "c"
                   distinction := "d"
                   high_distinction := "hd" }]
    context_text := "ctx"
    reference_text := none }

/-- Sum of the section scores of a gradingService result. -/
def GradingService.GradingResult.sectionSum (r : GradingService.GradingResult) : ℚ :=
  (r.sectionFeedback.map (fun p => p.2.score)).sum

/-- A rubric file with extracted text, used as a concrete input. -/
def rubFile : FileInfo :=
  { id := 3
    originalname := "rubric.pdf"
    filename := "2-rubric.pdf"
    extractedText := some "Methodology (20 points) explain your method" }

/-- A reference file whose extracted text is non-null but empty — falsy in
JavaScript although present. -/
def emptyTextFile : FileInfo :=
  { id := 9
    originalname := "blank.pdf"
    filename := "9-blank.pdf"
    extractedText := some "" }

/-- An analyzer environment in which every provider fails (throws, returns
`null`, or returns unparsable text). -/
def analyzerEnvNone : Analyzer.AnalyzerEnv :=
  { outcome := fun _ => none }

/-- A grader environment in which the analyzer's providers and the grading
providers all fail. -/
def envAllFail : Grader.GraderEnv :=
  { analyzer := analyzerEnvNone
    gradeOutcome := fun _ => none }

/-- A raw assignment schema of kind `numerical` whose single section carries
the negative weight −5, inconsistent with its stated 100 total marks. -/
def badSchema : SharedSchema.RawAssignmentSchema :=
  { assignment_title := some "Research Report"
    marking_schema_type := "numerical"
    total_possible_marks := some 100
    sections := [{ section_name := "Methodology"
                   section_weight := some (-5)
                   criteria := SharedSchema.Criteria.numerical [] }]
    general_instructions := some "Grade by marks"
    submission_requirements := some "Submit a report" }

/-! ### C1 — status is not recomputed from the score ratio -/

/-- C1 counterexample: the grading engine returns the model's status verbatim.
For the concrete parsed response `statusDriftParsed` (status `fail`, score
90/100) the returned result has status `fail` even though
`totalScore / maxPossibleScore = 9/10 ≥ 3/5` (the 60% threshold stated in the
gradingService prompt), so «status is `pass` iff the ratio is at least the
pass threshold» fails on the code. -/
theorem status_not_recomputed_cex :
    ¬ ((GradingService.gradeWithGemini statusDriftParsed subFile "t").status = Status.pass ↔
      (GradingService.gradeWithGemini statusDriftParsed subFile "t").totalScore /
        (GradingService.gradeWithGemini statusDriftParsed subFile "t").maxPossibleScore ≥
          (3 : ℚ) / 5) := by
  intro h
  have h90 : ((90 : ℚ) / 100) / 1 ≥ (3 : ℚ) / 5 := by norm_num
  have : (GradingService.gradeWithGemini statusDriftParsed subFile "t").status = Status.pass := by
    apply h.mpr
    show (90 : ℚ) / 100 ≥ (3 : ℚ) / 5
    norm_num
  simp [GradingService.gradeWithGemini, statusDriftParsed] at this

/-- C1 (amended): the grading engine copies the model-reported `status` field
into the returned `GradingResult` verbatim; no recomputation from
`totalScore / maxPossibleScore` against a pass threshold takes place.  This
holds for both grading engines (gradingService.ts and enhancedGrader.ts). -/
theorem status_passthrough :
    ∀ (p : GradingService.ParsedGrading) (q : EnhancedGrader.ParsedGrading)
      (f : FileInfo) (now : String),
      (GradingService.gradeWithGemini p f now).status = p.status ∧
      (EnhancedGrader.gradeWithGemini q f now).status = q.status := by
  intro p q f now
  exact ⟨rfl, rfl⟩

/-! ### C2 — section scores are not clamped -/

/-- C2 counterexample: for the concrete parsed response `outOfRangeParsed` the
returned result contains the section entry `("Intro", score 50, maxScore 10)`
unchanged, so «0 ≤ score ≤ maxScore for every SectionFeedback» fails on the
code: the score 50 exceeds the max score 10. -/
theorem score_bounds_cex :
    ∃ e ∈ (GradingService.gradeWithGemini outOfRangeParsed subFile "t").sectionFeedback,
      ¬ (0 ≤ e.2.score ∧ e.2.score ≤ e.2.maxScore) := by
  refine ⟨("Intro",
    { score := 50
      maxScore := 10
      feedback := "good"
      strengths := []
      improvements := [] }), ?_, ?_⟩
  · simp [GradingService.gradeWithGemini, outOfRangeParsed]
  · intro h
    have := h.2
    norm_num at this

/-- C2 (amended): the grading engine returns the model's `sectionFeedback`
object verbatim — no clamping of section scores into `[0, maxScore]` is
performed, in either grading engine. -/
theorem sectionFeedback_passthrough :
    ∀ (p : GradingService.ParsedGrading) (q : EnhancedGrader.ParsedGrading)
      (f : FileInfo) (now : String),
      (GradingService.gradeWithGemini p f now).sectionFeedback = p.sectionFeedback ∧
      (EnhancedGrader.gradeWithGemini q f now).sectionFeedback = q.sectionFeedback := by
  intro p q f now
  exact ⟨rfl, rfl⟩

/-! ### C3 — totalScore is not reconciled with the section sum -/

/-- C3 counterexample: for the concrete parsed response `totalDriftParsed` the
returned result has status `pass`, `totalScore = 90`, while the sum of its
section scores is `4 + 6 = 10`; the difference 80 exceeds any small tolerance,
so «totalScore equals the sum of section scores within a small tolerance» fails
on the code — the engine keeps the model's stated total verbatim. -/
theorem total_consistency_cex :
    (GradingService.gradeWithGemini totalDriftParsed subFile "t").status = Status.pass ∧
    (GradingService.gradeWithGemini totalDriftParsed subFile "t").totalScore -
      (GradingService.gradeWithGemini totalDriftParsed subFile "t").sectionSum = 80 := by
  constructor
  · rfl
  · simp [GradingService.gradeWithGemini, totalDriftParsed,
      GradingService.GradingResult.sectionSum]
    norm_num

/-- C3 (amended): the grading engine copies the model's stated `totalScore`
verbatim; it is never recomputed from the section scores, whatever the
disagreement between the two. -/
theorem totalScore_passthrough :
    ∀ (p : GradingService.ParsedGrading) (q : EnhancedGrader.ParsedGrading)
      (f : FileInfo) (now : String),
      (GradingService.gradeWithGemini p f now).totalScore = p.totalScore ∧
      (EnhancedGrader.gradeWithGemini q f now).totalScore = q.totalScore := by
  intro p q f now
  exact ⟨rfl, rfl⟩

/-! ### C5 — section completeness fails: no synthesis of omitted sections,
and the degraded result has an empty `sectionFeedback` -/

/-- C5 counterexample: the degraded (fallback) result produced by
`generateErrorResult` has an empty `sectionFeedback`, so for the concrete
one-section schema `introRubric` its key set (∅) differs from the schema's
section-name set ({"Intro"}), and it does not contain one zero-score entry per
schema section. -/
theorem section_completeness_cex :
    (EnhancedGrader.generateErrorResult subFile "Error: all providers failed" "t").sectionFeedback.map
        Prod.fst ≠ introRubric.sections.map EnhancedGrader.RubricSectionGrading.section_name := by
  simp [EnhancedGrader.generateErrorResult, introRubric]

/-- C5 (amended): the enhanced grading engine returns the model's
`sectionFeedback` keys verbatim (omitted schema sections are not synthesized),
and the degraded fallback result carries an empty `sectionFeedback` rather than
one zero-score entry per schema section. -/
theorem section_keys_passthrough :
    ∀ (q : EnhancedGrader.ParsedGrading) (f : FileInfo) (msg now : String),
      (EnhancedGrader.gradeWithGemini q f now).sectionFeedback.map Prod.fst =
        q.sectionFeedback.map Prod.fst ∧
      (EnhancedGrader.generateErrorResult f msg now).sectionFeedback = [] := by
  intro q f msg now
  exact ⟨rfl, rfl⟩

/-! ### Helper lemmas -/

/-- A schema accepted by `validateAssignmentSchema` has a non-empty section
list and one of the four enumerated schema kinds. -/
theorem validate_shape {s : SharedSchema.RawAssignmentSchema}
    (h : SharedSchema.validateAssignmentSchema s = true) :
    s.sections ≠ [] ∧ s.marking_schema_type ∈ SharedSchema.schemaKinds := by
  simp only [SharedSchema.validateAssignmentSchema, Bool.and_eq_true, Bool.or_eq_true,
    decide_eq_true_eq, Bool.not_eq_true'] at h
  obtain ⟨⟨⟨⟨-, hkind⟩, hempty⟩, -⟩, -⟩ := h
  constructor
  · intro hnil
    rw [hnil] at hempty
    simp at hempty
  · simp only [SharedSchema.schemaKinds, List.mem_cons, List.mem_singleton]
    tauto

/-- The analyzer's provider loop only returns schemas that pass validation. -/
theorem tryProviders_valid (env : Analyzer.AnalyzerEnv) :
    ∀ (ps : List String) (r : SharedSchema.RawAssignmentSchema),
      Analyzer.tryProviders env ps = some r →
      SharedSchema.validateAssignmentSchema r = true := by
  intro ps
  induction ps with
  | nil => intro r h; simp [Analyzer.tryProviders] at h
  | cons p rest ih =>
    intro r h
    cases hp : env.outcome p with
    | none =>
      simp only [Analyzer.tryProviders, hp] at h
      exact ih r h
    | some cand =>
      by_cases hv : SharedSchema.validateAssignmentSchema cand = true
      · simp only [Analyzer.tryProviders, hp, hv, if_true, Option.some.injEq] at h
        rw [← h]
        exact hv
      · simp only [Analyzer.tryProviders, hp, if_neg hv] at h
        exact ih r h

/-- If every provider fails, the provider loop fails. -/
theorem tryProviders_none (env : Analyzer.AnalyzerEnv)
    (hfail : ∀ p, env.outcome p = none) :
    ∀ ps : List String, Analyzer.tryProviders env ps = none := by
  intro ps
  induction ps with
  | nil => rfl
  | cons p rest ih => simp [Analyzer.tryProviders, hfail p, ih]

/-- Content extraction succeeds when every file has truthy (non-null,
non-empty) extracted text. -/
theorem extractContents_ok :
    ∀ files : List FileInfo,
      (∀ f ∈ files, ∃ t, f.extractedText = some t ∧ t ≠ "") →
      ∃ cs, Analyzer.extractContents files = Except.ok cs := by
  intro files
  induction files with
  | nil => intro _; exact ⟨[], rfl⟩
  | cons file rest ih =>
    intro h
    obtain ⟨cs, hcs⟩ := ih (fun f hf => h f (List.mem_cons_of_mem _ hf))
    obtain ⟨t, ht, hne⟩ := h file (List.mem_cons_self _ _)
    refine ⟨{ filename := file.originalname, content := t } :: cs, ?_⟩
    simp [Analyzer.extractContents, ht, hne, hcs, Except.map]

/-- Whatever the section candidates, the final list of
`extractDefaultSections` is non-empty. -/
theorem sections_result_ne_nil (sections : List String) :
    (if sections.isEmpty then Analyzer.fallbackSections else sections.take 8) ≠ [] := by
  by_cases h : sections.isEmpty
  · simp [h, Analyzer.fallbackSections]
  · rw [if_neg h]
    intro hnil
    rw [List.take_eq_nil_iff] at hnil
    rcases hnil with h8 | hs
    · exact absurd h8 (by norm_num)
    · rw [hs] at h
      simp at h

/-- `extractDefaultSections` never returns an empty list. -/
theorem extractDefaultSections_ne_nil (cs : List Analyzer.FileContent) :
    Analyzer.extractDefaultSections cs ≠ [] := by
  simp only [Analyzer.extractDefaultSections]
  exact sections_result_ne_nil _

/-- `Math.round` of a non-negative number is non-negative. -/
theorem jsRound_nonneg {q : ℚ} (h : 0 ≤ q) : 0 ≤ Routes.jsRound q := by
  unfold Routes.jsRound
  exact Int.floor_nonneg.mpr (by linarith)

/-- `Math.round` of a number at most 100 is at most 100. -/
theorem jsRound_le_100 {q : ℚ} (h : q ≤ 100) : Routes.jsRound q ≤ 100 := by
  unfold Routes.jsRound
  have h101 : q + 1 / 2 < (101 : ℚ) := by linarith
  have := Int.floor_lt.mpr (by exact_mod_cast h101 : q + 1 / 2 < ((101 : ℤ) : ℚ))
  omega

/-- `Math.round` is monotone. -/
theorem jsRound_mono {q q' : ℚ} (h : q ≤ q') : Routes.jsRound q ≤ Routes.jsRound q' :=
  Int.floor_le_floor (by linarith)

/-- The fractional progress `i / n * 100` is at most 100 while `i ≤ n`. -/
theorem progress_le_100 {i n : ℕ} (hn : 0 < n) (h : i ≤ n) :
    ((i : ℚ) / (n : ℚ)) * 100 ≤ 100 := by
  have hn' : (0 : ℚ) < n := by exact_mod_cast hn
  have h1 : (i : ℚ) / n ≤ 1 := by
    rw [div_le_one hn']
    exact_mod_cast h
  nlinarith

/-- The fractional progress is non-decreasing in the submission index. -/
theorem progress_mono {i n : ℕ} (hn : 0 < n) :
    ((i : ℚ) / (n : ℚ)) * 100 ≤ (((i + 1 : ℕ) : ℚ) / (n : ℚ)) * 100 := by
  have hn' : (0 : ℚ) < (n : ℚ) := by exact_mod_cast hn
  have hi : (i : ℚ) ≤ ((i + 1 : ℕ) : ℚ) := by push_cast; linarith
  gcongr

/-- A non-`processing` state can only sit at the last position of a list
whose head is `processing`, provided this holds of the tail. -/
theorem terminal_shift (a : Routes.JobState) (l : List Routes.JobState)
    (ha : a.status = Routes.JobStatus.processing)
    (h : ∀ k st, l[k]? = some st → st.status ≠ Routes.JobStatus.processing →
      k + 1 = l.length) :
    ∀ k st, (a :: l)[k]? = some st → st.status ≠ Routes.JobStatus.processing →
      k + 1 = (a :: l).length := by
  intro k st hk hstat
  cases k with
  | zero =>
    rw [List.getElem?_cons_zero, Option.some.injEq] at hk
    exact absurd (hk ▸ ha) hstat
  | succ k =>
    rw [List.getElem?_cons_succ] at hk
    have := h k st hk hstat
    simp only [List.length_cons]
    omega

/-- Unfolding the loop once it has run out of submissions. -/
theorem runLoop_stop (n : ℕ) (names : ℕ → String) (stepFail : ℕ → Option String)
    (i : ℕ) (prev : Routes.JobState) (hni : ¬ i < n) :
    Routes.runLoop n names stepFail i prev = [Routes.completeWrite prev] := by
  rw [Routes.runLoop]
  exact dif_neg hni

/-- The three lifecycle facts for the final, completing segment of the loop. -/
theorem runLoop_facts_stop (n : ℕ) (names : ℕ → String) (stepFail : ℕ → Option String)
    (i : ℕ) (prev : Routes.JobState) (hni : ¬ i < n)
    (h100 : prev.progress ≤ 100) :
    List.Chain' (fun a b => a.progress ≤ b.progress)
      (prev :: Routes.runLoop n names stepFail i prev) ∧
    (∀ st ∈ Routes.runLoop n names stepFail i prev,
      0 ≤ st.progress ∧ st.progress ≤ 100 ∧
      (st.status = Routes.JobStatus.complete → st.progress = 100)) ∧
    (∀ k st, (Routes.runLoop n names stepFail i prev)[k]? = some st →
      st.status ≠ Routes.JobStatus.processing →
      k + 1 = (Routes.runLoop n names stepFail i prev).length) := by
  rw [runLoop_stop n names stepFail i prev hni]
  refine ⟨?_, ?_, ?_⟩
  · exact List.chain'_cons.mpr ⟨h100, List.chain'_singleton _⟩
  · intro st hst
    rw [List.mem_singleton] at hst
    subst hst
    exact ⟨by norm_num [Routes.completeWrite], le_refl _, fun _ => rfl⟩
  · intro k st hk _
    cases k with
    | zero => simp
    | succ k =>
      rw [List.getElem?_cons_succ] at hk
      simp at hk

/-- The lifecycle invariants of the grading loop: the emitted states have
non-decreasing progress within `[0, 100]`, a `complete` state has progress
100, and any non-`processing` state is the final write. -/
theorem runLoop_facts (n : ℕ) (names : ℕ → String) (stepFail : ℕ → Option String) :
    ∀ gas i : ℕ, n - i ≤ gas → ∀ prev : Routes.JobState,
      prev.status = Routes.JobStatus.processing →
      0 ≤ prev.progress → prev.progress ≤ 100 →
      (i < n → prev.progress ≤ Routes.jsRound ((i : ℚ) / (n : ℚ) * 100)) →
      List.Chain' (fun a b => a.progress ≤ b.progress)
        (prev :: Routes.runLoop n names stepFail i prev) ∧
      (∀ st ∈ Routes.runLoop n names stepFail i prev,
        0 ≤ st.progress ∧ st.progress ≤ 100 ∧
        (st.status = Routes.JobStatus.complete → st.progress = 100)) ∧
      (∀ k st, (Routes.runLoop n names stepFail i prev)[k]? = some st →
        st.status ≠ Routes.JobStatus.processing →
        k + 1 = (Routes.runLoop n names stepFail i prev).length) := by
  intro gas
  induction gas with
  | zero =>
    intro i hle prev _ _ h100 _
    exact runLoop_facts_stop n names stepFail i prev (by omega) h100
  | succ gas ih =>
    intro i hle prev hstat h0 h100 hmono
    by_cases h : i < n
    · have hn : 0 < n := by omega
      have hfrac0 : (0 : ℚ) ≤ (i : ℚ) / (n : ℚ) * 100 := by positivity
      have hfrac100 : (i : ℚ) / (n : ℚ) * 100 ≤ 100 := progress_le_100 hn (le_of_lt h)
      have hp0 : 0 ≤ (Routes.progressWrite n i names prev).progress :=
        jsRound_nonneg hfrac0
      have hp100 : (Routes.progressWrite n i names prev).progress ≤ 100 :=
        jsRound_le_100 hfrac100
      have hprevp : prev.progress ≤ (Routes.progressWrite n i names prev).progress :=
        hmono h
      have hpstat : (Routes.progressWrite n i names prev).status
          = Routes.JobStatus.processing := hstat
      rw [Routes.runLoop, dif_pos h]
      cases hf : stepFail i with
      | some msg =>
        refine ⟨?_, ?_, ?_⟩
        · exact List.chain'_cons.mpr ⟨hprevp,
            List.chain'_cons.mpr ⟨le_of_eq rfl, List.chain'_singleton _⟩⟩
        · intro st hst
          rcases List.mem_cons.mp hst with hst1 | hst2
          · subst hst1
            refine ⟨hp0, hp100, fun hc => ?_⟩
            rw [hpstat] at hc
            cases hc
          · rw [List.mem_singleton] at hst2
            subst hst2
            refine ⟨hp0, hp100, fun hc => ?_⟩
            cases hc
        · intro k st hk hkstat
          cases k with
          | zero =>
            rw [List.getElem?_cons_zero, Option.some.injEq] at hk
            exact absurd (hk ▸ hpstat) hkstat
          | succ k =>
            cases k with
            | zero => simp
            | succ k =>
              rw [List.getElem?_cons_succ, List.getElem?_cons_succ] at hk
              simp at hk
      | none =>
        have hrstat : (Routes.resultWrite (Routes.progressWrite n i names prev)).status
            = Routes.JobStatus.processing := hstat
        have hrprog : (Routes.resultWrite (Routes.progressWrite n i names prev)).progress
            = (Routes.progressWrite n i names prev).progress := rfl
        have hrmono : i + 1 < n →
            (Routes.resultWrite (Routes.progressWrite n i names prev)).progress ≤
              Routes.jsRound (((i + 1 : ℕ) : ℚ) / (n : ℚ) * 100) := by
          intro _
          rw [hrprog]
          exact jsRound_mono (progress_mono hn)
        obtain ⟨ihC, ihB, ihT⟩ := ih (i + 1) (by omega)
          (Routes.resultWrite (Routes.progressWrite n i names prev))
          hrstat (by rw [hrprog]; exact hp0) (by rw [hrprog]; exact hp100) hrmono
        refine ⟨?_, ?_, ?_⟩
        · exact List.chain'_cons.mpr ⟨hprevp,
            List.chain'_cons.mpr ⟨le_of_eq hrprog.symm, ihC⟩⟩
        · intro st hst
          rcases List.mem_cons.mp hst with hst1 | hst2
          · subst hst1
            refine ⟨hp0, hp100, fun hc => ?_⟩
            rw [hpstat] at hc
            cases hc
          · rcases List.mem_cons.mp hst2 with hst3 | hst4
            · subst hst3
              refine ⟨by rw [hrprog]; exact hp0, by rw [hrprog]; exact hp100, fun hc => ?_⟩
              rw [hrstat] at hc
              cases hc
            · exact ihB st hst4
        · exact terminal_shift _ _ hpstat (terminal_shift _ _ hrstat ihT)
    · exact runLoop_facts_stop n names stepFail i prev h h100

/-! ### C9 — the job lifecycle state machine -/

/-- C9: for every grading job — any number of submissions, any pattern of
per-step failures — the job record starts as `processing` with progress 0;
successive writes carry integer progress values that never decrease and stay
in `[0, 100]`; a `complete` state has progress 100; and any state other than
`processing` (i.e. `complete` or `error`) is the final write: the
orchestrator performs no transition after a terminal state. -/
theorem job_lifecycle (n : ℕ) (names : ℕ → String) (stepFail : ℕ → Option String)
    (firstName : Option String) :
    (Routes.jobTrace n names stepFail firstName).head? = some (Routes.initJob firstName) ∧
    (Routes.initJob firstName).status = Routes.JobStatus.processing ∧
    (Routes.initJob firstName).progress = 0 ∧
    List.Chain' (fun a b => a.progress ≤ b.progress)
      (Routes.jobTrace n names stepFail firstName) ∧
    (∀ st ∈ Routes.jobTrace n names stepFail firstName,
      0 ≤ st.progress ∧ st.progress ≤ 100 ∧
      (st.status = Routes.JobStatus.complete → st.progress = 100)) ∧
    (∀ k st, (Routes.jobTrace n names stepFail firstName)[k]? = some st →
      st.status ≠ Routes.JobStatus.processing →
      k + 1 = (Routes.jobTrace n names stepFail firstName).length) := by
  have hinit0 : (Routes.initJob firstName).progress = 0 := rfl
  have hinitstat : (Routes.initJob firstName).status = Routes.JobStatus.processing := rfl
  have hmono0 : 0 < n → (Routes.initJob firstName).progress ≤
      Routes.jsRound ((0 : ℚ) / (n : ℚ) * 100) := by
    intro _
    rw [hinit0]
    apply jsRound_nonneg
    positivity
  have hmono0' : 0 < n → (Routes.initJob firstName).progress ≤
      Routes.jsRound (((0 : ℕ) : ℚ) / (n : ℚ) * 100) := by
    intro hn
    simpa using hmono0 hn
  obtain ⟨hC, hB, hT⟩ := runLoop_facts n names stepFail n 0 (by omega)
    (Routes.initJob firstName) hinitstat (by rw [hinit0]) (by rw [hinit0]; norm_num)
    (fun hn => hmono0' hn)
  refine ⟨rfl, hinitstat, hinit0, hC, ?_, ?_⟩
  · intro st hst
    rcases List.mem_cons.mp hst with hst1 | hst2
    · subst hst1
      refine ⟨by rw [hinit0], by rw [hinit0]; norm_num, fun hc => ?_⟩
      rw [hinitstat] at hc
      cases hc
    · exact hB st hst2
  · exact terminal_shift _ _ hinitstat hT

/-! ### C6 — the analyzer and empty extracted text -/

/-- C6 counterexample: `emptyTextFile` has non-null extracted text (the empty
string), which satisfies the claim's precondition, yet
`analyzeAssignmentMaterials` propagates an error for it — the truthiness
guard `if (!file.extractedText)` throws on the empty string and the outer
catch rethrows it wrapped — so «never propagates an error for non-null
extracted text» fails on the code. -/
theorem analyzeAssignmentMaterials_error_cex :
    emptyTextFile.extractedText ≠ none ∧
    Analyzer.analyzeAssignmentMaterials analyzerEnvNone [emptyTextFile] =
      Except.error
        "Assignment analysis failed: File blank.pdf does not have extracted text content." := by
  constructor
  · simp [emptyTextFile]
  · rfl

/-- C6 (amended): when every reference material has truthy extracted text
(non-null and non-empty — the source's `!file.extractedText` guard is a
truthiness test), `analyzeAssignmentMaterials` returns a schema (never an
error) with at least one section and one of the four recognized schema
kinds, and when every provider fails it returns the statically defined
default schema. -/
theorem analyzeAssignmentMaterials_total (env : Analyzer.AnalyzerEnv)
    (files : List FileInfo)
    (h : ∀ f ∈ files, ∃ t, f.extractedText = some t ∧ t ≠ "") :
    ∃ r, Analyzer.analyzeAssignmentMaterials env files = Except.ok r ∧
      1 ≤ r.sections.length ∧
      r.marking_schema_type ∈ SharedSchema.schemaKinds ∧
      ((∀ p, env.outcome p = none) →
        ∃ cs, Analyzer.extractContents files = Except.ok cs ∧
          r = Analyzer.createDefaultSchema cs) := by
  obtain ⟨cs, hcs⟩ := extractContents_ok files h
  unfold Analyzer.analyzeAssignmentMaterials
  rw [hcs]
  cases htry : Analyzer.tryProviders env Analyzer.aiProviders with
  | some r =>
    have hv := tryProviders_valid env Analyzer.aiProviders r htry
    obtain ⟨hne, hk⟩ := validate_shape hv
    refine ⟨r, rfl, ?_, hk, ?_⟩
    · have : r.sections.length ≠ 0 := fun h0 => hne (List.length_eq_zero.mp h0)
      omega
    · intro hall
      rw [tryProviders_none env hall Analyzer.aiProviders] at htry
      cases htry
  | none =>
    refine ⟨Analyzer.createDefaultSchema cs, rfl, ?_, ?_, ?_⟩
    · have hne := extractDefaultSections_ne_nil cs
      have : (Analyzer.extractDefaultSections cs).length ≠ 0 :=
        fun h0 => hne (List.length_eq_zero.mp h0)
      simpa [Analyzer.createDefaultSchema] using by omega
    · simp [Analyzer.createDefaultSchema, SharedSchema.schemaKinds]
    · intro _
      exact ⟨cs, rfl, rfl⟩

/-- C6 witness: a concrete one-file input with extracted text and the
all-providers-fail environment. -/
theorem analyzeAssignmentMaterials_total_witness :
    ∃ r, Analyzer.analyzeAssignmentMaterials analyzerEnvNone [rubFile] = Except.ok r ∧
      1 ≤ r.sections.length ∧
      r.marking_schema_type ∈ SharedSchema.schemaKinds ∧
      ((∀ p, analyzerEnvNone.outcome p = none) →
        ∃ cs, Analyzer.extractContents [rubFile] = Except.ok cs ∧
          r = Analyzer.createDefaultSchema cs) :=
  analyzeAssignmentMaterials_total analyzerEnvNone [rubFile]
    (by
      intro f hf
      simp only [List.mem_singleton] at hf
      subst hf
      exact ⟨"Methodology (20 points) explain your method", rfl, by decide⟩)

/-! ### C7 — TESTING_MODE short-circuits to the mock result -/

/-- C7: because `TESTING_MODE` is hard-coded `true`,
`gradePapersWithDynamicSchema` returns the fixed mock grading result — status
`pass`, totalScore 75, maxPossibleScore 100, with `MOCK_GRADING_RESULT`'s
content — for every input, and the result does not depend on the analyzer or
grading providers at all (they are never consulted). -/
theorem gradePapers_testing_mode (env env2 : Grader.GraderEnv) (now : String)
    (rubricFiles submissionFiles : List FileInfo) :
    (∃ r, Grader.gradePapersWithDynamicSchema env now rubricFiles submissionFiles =
        Grader.DynOutcome.mock r ∧
      r.status = Status.pass ∧ r.totalScore = 75 ∧ r.maxPossibleScore = 100 ∧
      r.overall_grade = Grader.MOCK_GRADING_RESULT.overall_grade ∧
      r.section_grades = Grader.MOCK_GRADING_RESULT.section_grades) ∧
    Grader.gradePapersWithDynamicSchema env now rubricFiles submissionFiles =
      Grader.gradePapersWithDynamicSchema env2 now rubricFiles submissionFiles := by
  exact ⟨⟨_, rfl, rfl, rfl, rfl, rfl, rfl⟩, rfl⟩

/-! ### C4 — degraded results do not carry a `pending` status -/

/-- C4 counterexample: with every provider failing (at both stages), the
entry point returns the TESTING_MODE mock object, whose status is `pass`,
not `pending`; and the non-testing fallback shape has no status field at
all. -/
theorem degraded_pending_cex :
    envAllFail.gradeOutcome "gemini" = none ∧
    envAllFail.gradeOutcome "anthropic" = none ∧
    envAllFail.gradeOutcome "openai" = none ∧
    (Grader.gradePapersWithDynamicSchema envAllFail "t" [rubFile] [subFile]).statusField
      = some Status.pass ∧
    ¬ (Grader.gradePapersWithDynamicSchema envAllFail "t" [rubFile] [subFile]).statusField
      = some Status.pending := by
  refine ⟨rfl, rfl, rfl, rfl, ?_⟩
  intro h
  rw [show (Grader.gradePapersWithDynamicSchema envAllFail "t" [rubFile] [subFile]).statusField
      = some Status.pass from rfl] at h
  simp at h

/-- C4 (amended): the entry point never throws, but under the hard-coded
TESTING_MODE it answers every request — including one where all providers
fail — with the mock result of status `pass`; the fallback result the
non-testing path would produce carries a non-empty `overall_feedback` and the
fixed grade "Unable to Grade", but no status field (`pending` or otherwise). -/
theorem degraded_result_amended (env : Grader.GraderEnv) (now : String)
    (rubricFiles submissionFiles : List FileInfo)
    (_hfail : ∀ p, env.gradeOutcome p = none) :
    (∃ r, Grader.gradePapersWithDynamicSchema env now rubricFiles submissionFiles =
        Grader.DynOutcome.mock r ∧ r.status = Status.pass) ∧
    ∀ msg : String,
      0 < ((Grader.generateFallbackGradingResult submissionFiles msg).overall_feedback).length ∧
      (Grader.DynOutcome.fallback
        (Grader.generateFallbackGradingResult submissionFiles msg)).statusField = none ∧
      (Grader.generateFallbackGradingResult submissionFiles msg).overall_grade
        = "Unable to Grade" := by
  refine ⟨⟨_, rfl, rfl⟩, ?_⟩
  intro msg
  refine ⟨?_, rfl, rfl⟩
  show 0 < (("Grading could not be completed for undefined. Error: " ++ msg).length)
  rw [String.length_append]
  have : 0 < ("Grading could not be completed for undefined. Error: ").length := by decide
  omega

/-- C4 witness: the amended statement at the concrete all-fail environment. -/
theorem degraded_result_amended_witness :
    (∃ r, Grader.gradePapersWithDynamicSchema envAllFail "t" [rubFile] [subFile] =
        Grader.DynOutcome.mock r ∧ r.status = Status.pass) ∧
    ∀ msg : String,
      0 < ((Grader.generateFallbackGradingResult [subFile] msg).overall_feedback).length ∧
      (Grader.DynOutcome.fallback
        (Grader.generateFallbackGradingResult [subFile] msg)).statusField = none ∧
      (Grader.generateFallbackGradingResult [subFile] msg).overall_grade
        = "Unable to Grade" :=
  degraded_result_amended envAllFail "t" [rubFile] [subFile] (fun _ => rfl)

/-! ### C10 — schema validation ignores weights and totals -/

/-- C10 counterexample: `badSchema` — kind `numerical`, a single section of
weight −5, stated total 100 — passes `validateAssignmentSchema` although its
weight is negative and the weight sum (−5) is inconsistent with the stated
total (100), so the claimed weight checks are not part of validation. -/
theorem schema_validation_cex :
    SharedSchema.validateAssignmentSchema badSchema = true ∧
    badSchema.marking_schema_type = "numerical" ∧
    badSchema.sections.map (fun s => s.section_weight) = [some (-5 : ℚ)] ∧
    ((-5 : ℚ) < 0) ∧
    badSchema.total_possible_marks = some 100 ∧ ((-5 : ℚ) ≠ 100) := by
  refine ⟨by decide, rfl, rfl, by norm_num, rfl, by norm_num⟩

/-- C10 (amended): every schema accepted by the analyzer's validation has at
least one section and a recognized schema kind, but the validation inspects
neither section weights nor the stated total: replacing them arbitrarily
never changes the verdict. -/
theorem schema_validation_amended (s : SharedSchema.RawAssignmentSchema)
    (h : SharedSchema.validateAssignmentSchema s = true) :
    s.sections ≠ [] ∧ s.marking_schema_type ∈ SharedSchema.schemaKinds ∧
    ∀ f g, SharedSchema.validateAssignmentSchema (SharedSchema.updateWeights s f g)
      = true := by
  obtain ⟨hne, hk⟩ := validate_shape h
  refine ⟨hne, hk, ?_⟩
  intro f g
  simp only [SharedSchema.validateAssignmentSchema, SharedSchema.updateWeights,
    Bool.and_eq_true] at h ⊢
  obtain ⟨⟨⟨⟨htitle, hkind⟩, hempty⟩, hgi⟩, hsr⟩ := h
  refine ⟨⟨⟨⟨htitle, hkind⟩, ?_⟩, hgi⟩, hsr⟩
  cases hs : s.sections with
  | nil => exact absurd hs hne
  | cons a rest => simp [hs]

/-- C10 witness: the amended statement at the concrete schema `badSchema`. -/
theorem schema_validation_amended_witness :
    badSchema.sections ≠ [] ∧
    badSchema.marking_schema_type ∈ SharedSchema.schemaKinds ∧
    ∀ f g, SharedSchema.validateAssignmentSchema (SharedSchema.updateWeights badSchema f g)
      = true :=
  schema_validation_amended badSchema (by decide)

/-! ### Helper lemmas for the response extractor -/

/-- The head of a non-empty `dropWhile` result fails the predicate. -/
theorem head_dropWhile_false (p : Char → Bool) :
    ∀ (l : List Char) (d : Char) (ds : List Char), l.dropWhile p = d :: ds → p d = false := by
  intro l
  induction l with
  | nil => intro d ds h; simp [List.dropWhile] at h
  | cons c t ih =>
    intro d ds h
    by_cases hc : p c
    · rw [List.dropWhile_cons_of_pos hc] at h
      exact ih d ds h
    · rw [List.dropWhile_cons_of_neg hc] at h
      cases h
      simpa using hc

/-- `dropWhile` over an append whose left part is all-satisfying. -/
theorem dropWhile_append_all (p : Char → Bool) :
    ∀ (a b : List Char), a.all p = true → (a ++ b).dropWhile p = b.dropWhile p := by
  intro a
  induction a with
  | nil => intro b _; rfl
  | cons c t ih =>
    intro b h
    rw [List.all_cons, Bool.and_eq_true] at h
    rw [List.cons_append, List.dropWhile_cons_of_pos h.1]
    exact ih b h.2

/-- `dropWhile` over an append whose left part is not all-satisfying. -/
theorem dropWhile_append_not_all (p : Char → Bool) :
    ∀ (a b : List Char), a.all p = false → (a ++ b).dropWhile p = a.dropWhile p ++ b := by
  intro a
  induction a with
  | nil => intro b h; simp at h
  | cons c t ih =>
    intro b h
    rw [List.all_cons, Bool.and_eq_false_iff] at h
    by_cases hc : p c
    · rw [List.cons_append, List.dropWhile_cons_of_pos hc, List.dropWhile_cons_of_pos hc]
      rcases h with h | h
      · rw [hc] at h; cases h
      · exact ih b h
    · rw [List.cons_append, List.dropWhile_cons_of_neg hc, List.dropWhile_cons_of_neg hc,
        List.cons_append]

/-- Trailing-trim of an all-whitespace list is empty. -/
theorem trimTrailing_all {l : List Char} (h : l.all Extractor.isWs = true) :
    Extractor.trimTrailing l = [] := by
  unfold Extractor.trimTrailing
  have : l.reverse.dropWhile Extractor.isWs = [] := by
    rw [List.dropWhile_eq_nil_iff]
    intro x hx
    rw [List.mem_reverse] at hx
    rw [List.all_eq_true] at h
    exact h x hx
  rw [this]
  rfl

/-- Trailing-trim distributes over a cons whose list is not all whitespace. -/
theorem trimTrailing_cons {c : Char} {l : List Char}
    (h : (c :: l).all Extractor.isWs = false) :
    Extractor.trimTrailing (c :: l) = c :: Extractor.trimTrailing l := by
  by_cases hl : l.all Extractor.isWs = true
  · have hc : Extractor.isWs c = false := by
      rw [List.all_cons, hl, Bool.and_true] at h
      exact h
    unfold Extractor.trimTrailing
    rw [List.reverse_cons,
      dropWhile_append_all Extractor.isWs l.reverse [c] (by rw [List.all_reverse]; exact hl),
      List.dropWhile_cons_of_neg (by rw [hc]; exact Bool.false_ne_true)]
    have hnil : List.dropWhile Extractor.isWs l.reverse = [] := by
      rw [List.dropWhile_eq_nil_iff]
      intro x hx
      rw [List.mem_reverse] at hx
      exact (List.all_eq_true.mp hl) x hx
    rw [hnil]
    rfl
  · unfold Extractor.trimTrailing
    rw [List.reverse_cons,
      dropWhile_append_not_all Extractor.isWs l.reverse [c]
        (by rw [List.all_reverse]; exact Bool.eq_false_iff.mpr hl),
      List.reverse_append]
    rfl

/-- Trailing-trim is idempotent. -/
theorem trimTrailing_idem (l : List Char) :
    Extractor.trimTrailing (Extractor.trimTrailing l) = Extractor.trimTrailing l := by
  simp [Extractor.trimTrailing, List.reverse_reverse, List.dropWhile_idempotent]

/-- The surrounding-whitespace trim of `JSON.parse` is idempotent. -/
theorem trimBoth_idem (l : List Char) :
    Extractor.trimBoth (Extractor.trimBoth l) = Extractor.trimBoth l := by
  show Extractor.trimTrailing ((Extractor.trimTrailing
    (l.dropWhile Extractor.isWs)).dropWhile Extractor.isWs) = _
  have step1 : (Extractor.trimTrailing (l.dropWhile Extractor.isWs)).dropWhile Extractor.isWs
      = Extractor.trimTrailing (l.dropWhile Extractor.isWs) := by
    cases hm : l.dropWhile Extractor.isWs with
    | nil => simp [Extractor.trimTrailing]
    | cons d ds =>
      have hd := head_dropWhile_false Extractor.isWs l d ds hm
      have hall : (d :: ds).all Extractor.isWs = false := by
        rw [List.all_cons, hd]
        rfl
      rw [trimTrailing_cons hall,
        List.dropWhile_cons_of_neg (by rw [hd]; exact Bool.false_ne_true)]
  rw [step1, trimTrailing_idem]
  rfl

/-- Decompose absence of a triple backtick at a cons cell. -/
theorem hasTripleTick_cons_false {c : Char} {l : List Char}
    (h : Extractor.hasTripleTick (c :: l) = false) :
    ((c = '`' && "``".toList.isPrefixOf l) = false) ∧
      Extractor.hasTripleTick l = false := by
  rw [Extractor.hasTripleTick, Bool.or_eq_false_iff] at h
  exact h

/-- Dropping a prefix cannot create a triple backtick. -/
theorem hasTripleTick_dropWhile (p : Char → Bool) :
    ∀ l : List Char, Extractor.hasTripleTick l = false →
      Extractor.hasTripleTick (l.dropWhile p) = false := by
  intro l
  induction l with
  | nil => intro h; exact h
  | cons c t ih =>
    intro h
    by_cases hc : p c
    · rw [List.dropWhile_cons_of_pos hc]
      exact ih (hasTripleTick_cons_false h).2
    · rw [List.dropWhile_cons_of_neg hc]
      exact h

/-- A list without a triple backtick cannot start with the opening fence. -/
theorem not_fence_head {c : Char} {l : List Char}
    (h : Extractor.hasTripleTick (c :: l) = false) :
    ("```json".toList.isPrefixOf (c :: l)) = false := by
  obtain ⟨h1, -⟩ := hasTripleTick_cons_false h
  cases hp : ("```json".toList.isPrefixOf (c :: l)) with
  | false => rfl
  | true =>
    exfalso
    rw [show "```json".toList = ['`', '`', '`', 'j', 's', 'o', 'n'] from rfl] at hp
    simp only [List.isPrefixOf, Bool.and_eq_true, beq_iff_eq] at hp
    obtain ⟨hc, hrest⟩ := hp
    have h2 : ("``".toList.isPrefixOf l) = true := by
      cases l with
      | nil => simp [List.isPrefixOf] at hrest
      | cons d t =>
        cases t with
        | nil => simp [List.isPrefixOf] at hrest
        | cons e t2 =>
          simp only [List.isPrefixOf, Bool.and_eq_true, beq_iff_eq] at hrest ⊢
          exact ⟨hrest.1, hrest.2.1, trivial⟩
    rw [← hc, h2, Bool.and_true] at h1
    simp at h1

/-- Without a triple backtick in the input, the fence regex does not match. -/
theorem fenceCapture_none : ∀ {l : List Char}, Extractor.hasTripleTick l = false →
    Extractor.fenceCapture l = none := by
  intro l
  induction l with
  | nil => intro _; rfl
  | cons c t ih =>
    intro h
    rw [Extractor.fenceCapture, not_fence_head h]
    simp only [Bool.false_eq_true, if_false]
    exact ih (hasTripleTick_cons_false h).2

/-- After a fence-free payload, the closing-fence test succeeds exactly on
the all-whitespace remainder. -/
theorem ticksAfterWs_append : ∀ {x : List Char}, Extractor.hasTripleTick x = false →
    Extractor.ticksAfterWs (x ++ Extractor.wTail) = x.all Extractor.isWs := by
  intro x
  induction x with
  | nil => intro _; rfl
  | cons c t ih =>
    intro h
    obtain ⟨h1, h2⟩ := hasTripleTick_cons_false h
    by_cases hc : Extractor.isWs c = true
    · rw [List.cons_append, Extractor.ticksAfterWs, List.dropWhile_cons_of_pos hc]
      rw [List.all_cons, hc, Bool.true_and]
      exact ih h2
    · have hc' : Extractor.isWs c = false := Bool.eq_false_iff.mpr hc
      rw [List.cons_append, Extractor.ticksAfterWs,
        List.dropWhile_cons_of_neg hc, List.all_cons, hc', Bool.false_and]
      by_cases htick : c = '`'
      · subst htick
        simp only [decide_True, Bool.true_and] at h1
        rw [show "```".toList = ['`', '`', '`'] from rfl]
        simp only [List.isPrefixOf, Bool.and_eq_false_iff, beq_self_eq_true]
        right
        cases t with
        | nil => simp [Extractor.wTail, List.isPrefixOf]
        | cons d t1 =>
          cases t1 with
          | nil => simp [Extractor.wTail, List.isPrefixOf]
          | cons e t2 =>
            rw [show "``".toList = ['`', '`'] from rfl] at h1
            simp only [List.cons_append, List.isPrefixOf, Bool.and_eq_false_iff] at h1 ⊢
            rcases h1 with h1 | h1
            · exact Or.inl h1
            · rcases h1 with h1 | h1
              · exact Or.inr (Or.inl h1)
              · simp at h1
      · have hne : ¬ ('`' = c) := fun e => htick e.symm
        rw [show "```".toList = ['`', '`', '`'] from rfl]
        simp [List.isPrefixOf, hne]

/-- After a fence-free payload, the lazy capture of the fence regex takes
exactly the payload minus its trailing whitespace. -/
theorem capAux_append : ∀ {l : List Char}, Extractor.hasTripleTick l = false →
    Extractor.capAux (l ++ Extractor.wTail) = some (Extractor.trimTrailing l) := by
  intro l
  induction l with
  | nil => intro _; rfl
  | cons c t ih =>
    intro h
    obtain ⟨-, h2⟩ := hasTripleTick_cons_false h
    have hK := ticksAfterWs_append (x := c :: t) h
    rw [List.cons_append] at hK
    by_cases hall : (c :: t).all Extractor.isWs = true
    · rw [List.cons_append]
      simp only [Extractor.capAux]
      rw [hK, hall]
      simp only [if_true]
      rw [trimTrailing_all hall]
    · have hall' : (c :: t).all Extractor.isWs = false := Bool.eq_false_iff.mpr hall
      rw [List.cons_append]
      simp only [Extractor.capAux]
      rw [hK, hall']
      simp only [Bool.false_eq_true, if_false]
      rw [ih h2]
      simp only [Option.map_some']
      rw [trimTrailing_cons hall']

/-- The one-step unfolding of the fence scan at a cons cell. -/
theorem fenceCapture_cons_eq (c : Char) (rest : List Char) :
    Extractor.fenceCapture (c :: rest) =
      if "```json".toList.isPrefixOf (c :: rest) then
        match Extractor.capAux (((c :: rest).drop 7).dropWhile Extractor.isWs) with
        | some cap => some cap
        | none => Extractor.fenceCapture rest
      else Extractor.fenceCapture rest := by
  rw [Extractor.fenceCapture]

/-- The character data of the fence wrapper. -/
theorem fenceWrap_data (s : String) :
    (Extractor.fenceWrap s).data = Extractor.wrapData s.data := by
  cases s with
  | mk l => rfl

/-- On a fence-free payload, the fence regex applied to the wrapped text
captures exactly the payload minus its surrounding whitespace. -/
theorem fenceCapture_wrap {l : List Char} (h : Extractor.hasTripleTick l = false) :
    Extractor.fenceCapture (Extractor.wrapData l) = some (Extractor.trimBoth l) := by
  unfold Extractor.wrapData
  rw [fenceCapture_cons_eq]
  have hcond : ("```json".toList.isPrefixOf
      ('`' :: '`' :: '`' :: 'j' :: 's' :: 'o' :: 'n' :: '\n' :: (l ++ Extractor.wTail)))
      = true := by
    simp [List.isPrefixOf]
  rw [hcond]
  simp only [if_true]
  have hdrop : (('`' :: '`' :: '`' :: 'j' :: 's' :: 'o' :: 'n' :: '\n' ::
      (l ++ Extractor.wTail)).drop 7) = '\n' :: (l ++ Extractor.wTail) := rfl
  rw [hdrop, List.dropWhile_cons_of_pos (by rfl)]
  by_cases hall : l.all Extractor.isWs = true
  · rw [dropWhile_append_all Extractor.isWs l Extractor.wTail hall]
    have h1 : List.dropWhile Extractor.isWs Extractor.wTail = ['`', '`', '`'] := rfl
    rw [h1]
    have h2 : Extractor.capAux ['`', '`', '`'] = some [] := rfl
    rw [h2]
    have h3 : l.dropWhile Extractor.isWs = [] := by
      rw [List.dropWhile_eq_nil_iff]
      intro x hx
      exact (List.all_eq_true.mp hall) x hx
    unfold Extractor.trimBoth
    rw [h3]
    rfl
  · have hall' : l.all Extractor.isWs = false := Bool.eq_false_iff.mpr hall
    rw [dropWhile_append_not_all Extractor.isWs l Extractor.wTail hall']
    rw [capAux_append (hasTripleTick_dropWhile Extractor.isWs l h)]
    rfl

/-! ### C8 — extractor idempotence on fenced input -/

/-- C8 counterexample: the string `jsonWithFence` is itself valid JSON (a
JSON string literal), yet the extraction step parses it to the number `0`
when given directly (the regex fires on the fence inside the literal) and
fails (`null`) when the same string arrives wrapped in a markdown fence, so
the two paths do not yield the same parsed value. -/
theorem extractor_fence_cex :
    (Extractor.jsonParse jsonWithFence).isSome = true ∧
    Extractor.geminiExtract jsonWithFence = some (Extractor.Json.num "0") ∧
    Extractor.geminiExtract (Extractor.fenceWrap jsonWithFence) = none ∧
    Extractor.geminiExtract (Extractor.fenceWrap jsonWithFence) ≠
      Extractor.geminiExtract jsonWithFence := by
  refine ⟨rfl, rfl, rfl, ?_⟩
  intro hEq
  rw [show Extractor.geminiExtract (Extractor.fenceWrap jsonWithFence) = none from rfl,
    show Extractor.geminiExtract jsonWithFence = some (Extractor.Json.num "0") from rfl] at hEq
  cases hEq

/-- C8 (amended): for every string that is valid JSON and contains no triple
backtick, the response-extraction step yields the same parsed value whether
the string is given directly or wrapped in a markdown ```` ```json ````
code fence.  (Directly, the regex does not match and the whole string is
parsed; wrapped, the capture is the string minus surrounding whitespace,
which `JSON.parse` ignores anyway.) -/
theorem extractor_fence_amended (s : String)
    (hno : Extractor.hasTripleTick s.data = false)
    (_hvalid : (Extractor.jsonParse s).isSome = true) :
    Extractor.geminiExtract (Extractor.fenceWrap s) = Extractor.geminiExtract s := by
  have hdirect : Extractor.geminiExtract s = Extractor.jsonParse s := by
    unfold Extractor.geminiExtract
    rw [fenceCapture_none hno]
  have hwrap : Extractor.geminiExtract (Extractor.fenceWrap s) =
      Extractor.jsonParse (String.mk (Extractor.trimBoth s.data)) := by
    unfold Extractor.geminiExtract
    rw [fenceWrap_data, fenceCapture_wrap hno]
  have htrim : Extractor.jsonParse (String.mk (Extractor.trimBoth s.data)) =
      Extractor.jsonParse s := by
    unfold Extractor.jsonParse
    rw [show (String.mk (Extractor.trimBoth s.data)).data = Extractor.trimBoth s.data from rfl]
    rw [trimBoth_idem]
  rw [hwrap, htrim, hdirect]

/-- C8 witness: the amended statement at the concrete valid JSON string
"42", which contains no fence. -/
theorem extractor_fence_amended_witness :
    Extractor.geminiExtract (Extractor.fenceWrap "42") = Extractor.geminiExtract "42" :=
  extractor_fence_amended "42" rfl rfl

end AITutor
